import Mathlib

/-!
# ppick: the incremental filter, cursor and viewport engine

A shallow embedding of `src/ppick.c`.  C strings are lists of characters, C `int`s are
integers, the file-scope and function-scope `static` variables are the fields of `State`,
and everything fixed before the interactive loop starts (options, item list, terminal height,
the C library's matcher) is the record `Env`.  A call that ends the process returns
`Session.exited`.
-/

namespace PPick

/-- A NUL-terminated C string. -/
abbrev Str := List Char

/-! ## Preprocessor helpers (ppick.c 33-35) -/

/-- `#define max(a,b) (((a) > (b)) ? (a) : (b))`. -/
def max (a b : Int) : Int := if a > b then a else b

/-- `#define min(a,b) (((a) < (b)) ? (a) : (b))`. -/
def min (a b : Int) : Int := if a < b then a else b

/-- `#define middle(a,b,c) max(a, min(b, c));`. -/
def middle (a b c : Int) : Int := max a (min b c)

/-! ## C library and curses facts the program relies on

The program never calls `setlocale`, so the `<ctype.h>` predicates are those of the "C" locale.
Outside the range of `unsigned char` the C standard leaves them undefined; here they are false.
-/

/-- `isupper` in the "C" locale. -/
def isupper (c : Int) : Bool := decide (65 ≤ c ∧ c ≤ 90)

/-- `isalnum` in the "C" locale. -/
def isalnum (c : Int) : Bool :=
  decide ((48 ≤ c ∧ c ≤ 57) ∨ (65 ≤ c ∧ c ≤ 90) ∨ (97 ≤ c ∧ c ≤ 122))

/-- `ispunct` in the "C" locale. -/
def ispunct (c : Int) : Bool :=
  decide ((33 ≤ c ∧ c ≤ 47) ∨ (58 ≤ c ∧ c ≤ 64) ∨ (91 ≤ c ∧ c ≤ 96) ∨ (123 ≤ c ∧ c ≤ 126))

/-- Curses key code `KEY_DOWN` (octal 0402). -/
def KEY_DOWN : Int := 258
/-- Curses key code `KEY_UP` (octal 0403). -/
def KEY_UP : Int := 259
/-- Curses key code `KEY_HOME` (octal 0406). -/
def KEY_HOME : Int := 262
/-- Curses key code `KEY_BACKSPACE` (octal 0407). -/
def KEY_BACKSPACE : Int := 263
/-- Curses key code `KEY_NPAGE` (octal 0522). -/
def KEY_NPAGE : Int := 338
/-- Curses key code `KEY_PPAGE` (octal 0523). -/
def KEY_PPAGE : Int := 339
/-- Curses key code `KEY_END` (octal 0550). -/
def KEY_END : Int := 360

/-- The character with a given code, as `(char) c` stores it in a string. -/
def toChar (c : Int) : Char := Char.ofNat c.toNat

/-- The code of a character read back from a string, as `ptr[0]` passes it to `display`. -/
def ofChar (ch : Char) : Int := (ch.toNat : Int)

/-- Curses `keyname`: the printable name of a key code.  Control characters are written with a
caret, printable ASCII as itself, and the function keys the program looks for by their curses
names.  Every other code has a name the program never compares against; it is rendered as the
empty string. -/
def keyname (c : Int) : String :=
  if c = KEY_DOWN then "KEY_DOWN"
  else if c = KEY_UP then "KEY_UP"
  else if c = KEY_HOME then "KEY_HOME"
  else if c = KEY_BACKSPACE then "KEY_BACKSPACE"
  else if c = KEY_NPAGE then "KEY_NPAGE"
  else if c = KEY_PPAGE then "KEY_PPAGE"
  else if c = KEY_END then "KEY_END"
  else if 0 ≤ c ∧ c < 32 then String.mk ['^', toChar (c + 64)]
  else if 32 ≤ c ∧ c < 127 then String.mk [toChar c]
  else if c = 127 then "^?"
  else ""

/-! ## Globals (ppick.c 121-143) -/

/-- Everything that is fixed once the interactive loop starts. -/
structure Env where
  /-- The value of `FNM_CASEFOLD`: the GNU flag, or `0` through the `#ifndef` fallback. -/
  FNM_CASEFOLD : Int
  /-- The C library's `fnmatch(pattern, string, flags)`; `0` means the string matches. -/
  fnmatch : Str → Str → Int → Int
  /-- The curses variable `LINES`, the height of the terminal. -/
  LINES : Int
  /-- The global `prefix` (option `-p`, `-P`), `"*"` by default. -/
  pfx : Str
  /-- The global `suffix` (option `-s`, `-S`), `"*"` by default. -/
  suffix : Str
  /-- The global `qq_quits`, `1` by default and `0` under `-Q`. -/
  qq_quits : Int
  /-- The global `favourite` (option `-f`), a null pointer by default. -/
  favourite : Option Str
  /-- The items `lineTxt[0 .. linec-1]`. -/
  lineTxt : List Str

/-- The global `linec`. -/
def Env.linec (env : Env) : Int := (env.lineTxt.length : Int)

/-- The mutable variables: the globals `match`, `matchCount`, `fn_pattern`, `fn_flag`, the
statics of `display` and of `quit`, and a record of what the last frame put on the screen. -/
structure State where
  /-- The global array `match`, one `char` per item. -/
  match_ : List Int
  /-- The global `matchCount`. -/
  matchCount : Int
  /-- The static `fn_pattern`. -/
  fn_pattern : Str
  /-- The static `fn_flag`. -/
  fn_flag : Int
  /-- The static `selection` of `display`; `none` is the null pointer. -/
  selection : Option Str
  /-- The static `search` of `display`; `search_len` is its length. -/
  search : Str
  /-- The static `current` of `display`. -/
  current : Int
  /-- The static `qcnt` of `quit`. -/
  qcnt : Int
  /-- The local `top` of the last `display` call that laid out a frame. -/
  top : Int
  /-- The items the last frame wrote to the main window, each with its highlight. -/
  drawn : List (Str × Bool)
  deriving DecidableEq, Repr

/-- The process is either still in its loop or has called `exit`. -/
inductive Session where
  /-- Still running, with the given variables. -/
  | running (s : State)
  /-- Ended with the given exit status; `output` is the item handed to `handle_selection`. -/
  | exited (status : Int) (output : Option Str)
  deriving DecidableEq, Repr

/-! ## The GNU C library's `fnmatch`

`fnmatch` is not part of the program.  This is its behaviour in the "C" locale for the two flag
values the program passes (`0` and `FNM_CASEFOLD`): `*` matches any run of characters, `?` any
one character, a backslash quotes the next character, and a bracket expression matches one
character out of a set given by single characters, ranges and named classes, negated by a
leading `!` or `^`.  Collating symbols and equivalence classes are not covered.
-/

/-- One member of a bracket expression. -/
inductive SetItem where
  /-- A single character. -/
  | ch (c : Char)
  /-- A range `lo-hi`. -/
  | range (lo hi : Char)
  /-- A named class `[:name:]`. -/
  | cls (name : Str)
  deriving DecidableEq, Repr

/-- One element of a pattern. -/
inductive Tok where
  /-- An ordinary or quoted character. -/
  | lit (c : Char)
  /-- The wildcard `?`. -/
  | any
  /-- The wildcard `*`. -/
  | star
  /-- A bracket expression. -/
  | set (neg : Bool) (items : List SetItem)
  /-- A pattern ending inside a quotation, which matches nothing. -/
  | never
  deriving DecidableEq, Repr

/-- The outcome of reading the inside of a bracket expression. -/
inductive SetParse where
  /-- The members, and the pattern after the closing bracket. -/
  | ok (items : List SetItem) (rest : Str)
  /-- No closing bracket: the opening bracket is an ordinary character. -/
  | unterminated
  /-- The pattern ends right after a backslash. -/
  | bad
  deriving DecidableEq, Repr

/-- `FOLD`: the lower-case form of a character when `FNM_CASEFOLD` is set. -/
def fold (cf : Bool) (c : Char) : Char := if cf then c.toLower else c

/-- Membership in a named character class of the "C" locale. -/
def inClass (name : Str) (c : Char) : Bool :=
  let n := c.toNat
  let upper := decide (65 ≤ n ∧ n ≤ 90)
  let lower := decide (97 ≤ n ∧ n ≤ 122)
  let digit := decide (48 ≤ n ∧ n ≤ 57)
  let graph := decide (33 ≤ n ∧ n ≤ 126)
  if name = "upper".toList then upper
  else if name = "lower".toList then lower
  else if name = "alpha".toList then upper || lower
  else if name = "digit".toList then digit
  else if name = "alnum".toList then upper || lower || digit
  else if name = "xdigit".toList then digit || decide (65 ≤ n ∧ n ≤ 70) || decide (97 ≤ n ∧ n ≤ 102)
  else if name = "blank".toList then decide (n = 32 ∨ n = 9)
  else if name = "space".toList then decide (n = 32 ∨ (9 ≤ n ∧ n ≤ 13))
  else if name = "cntrl".toList then decide (n < 32 ∨ n = 127)
  else if name = "graph".toList then graph
  else if name = "print".toList then decide (32 ≤ n ∧ n ≤ 126)
  else if name = "punct".toList then graph && !(upper || lower || digit)
  else false

/-- Does one member of a bracket expression accept the character `d`? -/
def SetItem.accepts (cf : Bool) (d : Char) : SetItem → Bool
  | SetItem.ch c => fold cf c == fold cf d
  | SetItem.range lo hi =>
    decide ((fold cf lo).toNat ≤ (fold cf d).toNat ∧ (fold cf d).toNat ≤ (fold cf hi).toNat)
  | SetItem.cls name => inClass name d

/-- The name of a class up to its closing `:]`, and the pattern after it. -/
def splitClass : Str → Str → Option (Str × Str)
  | _, [] => none
  | name, ':' :: ']' :: rest => some (name, rest)
  | name, c :: rest => splitClass (name ++ [c]) rest

/-- A member that starts with the character `lo`: a range if a `-` and an end point follow. -/
def setMember (lo : Char) (rest : Str) : Option (SetItem × Str) :=
  match rest with
  | '-' :: ']' :: _ => some (SetItem.ch lo, rest)
  | '-' :: '\\' :: hi :: rest' => some (SetItem.range lo hi, rest')
  | '-' :: '\\' :: [] => none
  | '-' :: hi :: rest' => some (SetItem.range lo hi, rest')
  | _ => some (SetItem.ch lo, rest)

/-- The members of a bracket expression up to its closing bracket.  A `]` met first is a
member; `fuel` bounds the number of members. -/
def parseSet : Nat → Bool → Str → List SetItem → SetParse
  | 0, _, _, _ => SetParse.unterminated
  | _ + 1, _, [], _ => SetParse.unterminated
  | n + 1, first, c :: rest, acc =>
    if c = ']' ∧ first = false then SetParse.ok acc rest
    else if c = '[' ∧ rest.head? = some ':' then
      match splitClass [] rest.tail with
      | some (name, rest') => parseSet n false rest' (acc ++ [SetItem.cls name])
      | none => parseSet n false rest (acc ++ [SetItem.ch '['])
    else if c = '\\' then
      match rest with
      | [] => SetParse.bad
      | q :: rest' =>
        match setMember q rest' with
        | some (item, rest'') => parseSet n false rest'' (acc ++ [item])
        | none => SetParse.bad
    else
      match setMember c rest with
      | some (item, rest') => parseSet n false rest' (acc ++ [item])
      | none => SetParse.bad

/-- The elements of a pattern; `fuel` bounds their number. -/
def tokens : Nat → Str → List Tok
  | 0, _ => []
  | _ + 1, [] => []
  | n + 1, c :: p =>
    if c = '*' then Tok.star :: tokens n p
    else if c = '?' then Tok.any :: tokens n p
    else if c = '\\' then
      match p with
      | [] => [Tok.never]
      | q :: p' => Tok.lit q :: tokens n p'
    else if c = '[' then
      let neg := decide (p.head? = some '!' ∨ p.head? = some '^')
      let body := if neg then p.tail else p
      match parseSet (body.length + 1) true body [] with
      | SetParse.ok items rest => Tok.set neg items :: tokens n rest
      | SetParse.unterminated => Tok.lit '[' :: tokens n p
      | SetParse.bad => [Tok.never]
    else Tok.lit c :: tokens n p

/-- Does some final segment of the string satisfy `f`?  This is how `*` tries every split. -/
def anyTail (f : Str → Bool) : Str → Bool
  | [] => f []
  | d :: s => f (d :: s) || anyTail f s

/-- Does the whole string match the pattern elements? -/
def matchToks (cf : Bool) : List Tok → Str → Bool
  | [], s => s.isEmpty
  | Tok.star :: ts, s => anyTail (matchToks cf ts) s
  | Tok.never :: _, _ => false
  | Tok.lit _ :: _, [] => false
  | Tok.any :: _, [] => false
  | Tok.set _ _ :: _, [] => false
  | Tok.lit c :: ts, d :: s => (fold cf c == fold cf d) && matchToks cf ts s
  | Tok.any :: ts, _ :: s => matchToks cf ts s
  | Tok.set neg items :: ts, d :: s =>
    ((items.any (SetItem.accepts cf d)) != neg) && matchToks cf ts s

/-- `fnmatch(pattern, string, flags)` of the GNU C library: `0` on a match and `FNM_NOMATCH`
(which is `1`) otherwise.  Bit 4 of `flags` is `FNM_CASEFOLD`. -/
def fnmatch (pattern string : Str) (flags : Int) : Int :=
  if matchToks (decide (flags / 16 % 2 = 1)) (tokens (pattern.length + 1) pattern) string
  then 0 else 1

/-- A GNU/Linux platform, where `FNM_CASEFOLD` is `1 << 4`, with the program's default options
(`prefix` and `suffix` both `"*"`, `qq_quits` set, no favourite). -/
def gnuDefault (LINES : Int) (lineTxt : List Str) : Env :=
  { FNM_CASEFOLD := 16, fnmatch := fnmatch, LINES := LINES, pfx := ['*'], suffix := ['*'],
    qq_quits := 1, favourite := none, lineTxt := lineTxt }

/-! ## Exit keys (ppick.c 150-162) -/

/-- `quit(c, kn)`.  Every `die(1)` ends the process with status 1 and no output. -/
def quit (env : Env) (s : State) (c : Int) (kn : String) : Session :=
  if env.qq_quits ≠ 0 ∧ c = 113 ∧ s.qcnt ≠ 0 then Session.exited 1 none
  else
    let qcnt :=
      if env.qq_quits ≠ 0 then (if c = 113 then s.qcnt + 1 else 0) else s.qcnt
    if c = 27 ∨ kn = "^C" then Session.exited 1 none
    else Session.running { s with qcnt := qcnt }

/-! ## Pattern matching (ppick.c 284-302) -/

/-- The smartcase loop `for (i=0; i<len && fn_flag; i+=1) if (isupper(needle[i])) fn_flag = 0;`. -/
def smartcaseLoop : Str → Int → Int
  | [], fn_flag => fn_flag
  | ch :: rest, fn_flag =>
    if fn_flag ≠ 0 then smartcaseLoop rest (if isupper (ofChar ch) then 0 else fn_flag)
    else fn_flag

/-- `fn_match_init(needle)`: the new values of `fn_flag` and `fn_pattern`. -/
def fn_match_init (env : Env) (needle : Str) : Int × Str :=
  (smartcaseLoop needle env.FNM_CASEFOLD, env.pfx ++ needle ++ env.suffix)

/-- `fn_match(haystack)`, i.e. `!fnmatch(fn_pattern, haystack, fn_flag)`. -/
def fn_match (env : Env) (fn_flag : Int) (fn_pattern haystack : Str) : Bool :=
  decide (env.fnmatch fn_pattern haystack fn_flag = 0)

/-! ## Match cache (ppick.c 334-349) -/

/-- The loop of `updateResults` over the remaining items: the flags written and the final
`matchCount`. -/
def updateLoop (env : Env) (fn_flag : Int) (fn_pattern : Str) : List Str → Int → List Int × Int
  | [], matchCount => ([], matchCount)
  | txt :: rest, matchCount =>
    if fn_match env fn_flag fn_pattern txt then
      let r := updateLoop env fn_flag fn_pattern rest (matchCount + 1)
      (1 :: r.1, r.2)
    else
      let r := updateLoop env fn_flag fn_pattern rest matchCount
      (0 :: r.1, r.2)

/-- `updateResults(needle)`. -/
def updateResults (env : Env) (s : State) (needle : Str) : State :=
  let init := fn_match_init env needle
  let r := updateLoop env init.1 init.2 env.lineTxt 0
  { s with fn_flag := init.1, fn_pattern := init.2, match_ := r.1, matchCount := r.2 }

/-! ## Display and selection handling (ppick.c 351-499) -/

/-- The drawing loop of `display` (lines 451-470) over the remaining items and their flags:
`y` counts the flagged items met so far, `continue` skips a match above the window, `break`
leaves the loop at the bottom of the screen.  Returns `selection` and the items drawn. -/
def drawLoop (LINES top current : Int) :
    List (Str × Int) → Int → Option Str → List (Str × Bool) → Option Str × List (Str × Bool)
  | [], _, selection, drawn => (selection, drawn)
  | (txt, m) :: rest, y, selection, drawn =>
    if m ≠ 0 then
      let y := y + 1
      if y < top then drawLoop LINES top current rest y selection drawn
      else if y ≥ LINES + top then (selection, drawn)
      else if y - current = 1 then
        drawLoop LINES top current rest y (some txt) (drawn ++ [(txt, true)])
      else drawLoop LINES top current rest y selection (drawn ++ [(txt, false)])
    else drawLoop LINES top current rest y selection drawn

/-- Lines 442-470 of `display`: clamp `current`, compute `top`, draw the frame. -/
def layout (env : Env) (s : State) : State :=
  let current := middle 0 s.current (s.matchCount - 1)
  let top := middle 0 (current - Int.tdiv env.LINES 2) (s.matchCount - env.LINES + 1)
  let r := drawLoop env.LINES top current (env.lineTxt.zip s.match_) 0 none []
  { s with current := current, top := top, selection := r.1, drawn := r.2 }

/-- Lines 381-397 of `display`: the navigation keys, recognised by name.  Returns the new
values of `current` and of `c`, which a navigation key sets to `0`. -/
def navigate (env : Env) (s : State) (c : Int) (key : Option String) : Int × Int :=
  let (current, c) :=
    if key = some "KEY_DOWN" then (s.current + 1, 0) else (s.current, c)
  let (current, c) :=
    if key = some "KEY_UP" then (current - 1, 0) else (current, c)
  let (current, c) :=
    if key = some "KEY_NPAGE" then (current + Int.tdiv env.LINES 2, 0) else (current, c)
  let (current, c) :=
    if key = some "KEY_PPAGE" then (current - Int.tdiv env.LINES 2, 0) else (current, c)
  let (current, c) :=
    if key = some "KEY_HOME" then (0, 0) else (current, c)
  let (current, c) :=
    if key = some "KEY_END" then (s.matchCount, 0) else (current, c)
  (current, c)

/-- Lines 381-438 of `display`: the effect of a key on `current` and on the search string,
with the refresh of the match cache when the search string changed. -/
def keyEdit (env : Env) (s : State) (c : Int) (key : Option String) : State :=
  let nav := navigate env s c key
  let current := nav.1
  -- a space stands for the wildcard (line 400)
  let c := if nav.2 = 32 then 42 else nav.2
  -- edits of the search string (lines 403-407)
  let printable := isalnum c || ispunct c
  let buf := if printable then s.search ++ [toChar c] else s.search
  let change : Int := if printable then 1 else 0
  let change : Int := if c = KEY_BACKSPACE ∧ 0 < s.search.length then -1 else change
  if change ≠ 0 then
    let search := buf.take ((s.search.length : Int) + change).toNat
    updateResults env { s with search := search, current := 0 } search
  else { s with current := current }

/-- Lines 381-499 of `display`: what a call does once it is neither a confirmation nor a
replay of the favourite. -/
def displayKey (env : Env) (s : State) (c : Int) (key : Option String) : State :=
  layout env (keyEdit env s c key)

/-- `handle_selection(selection)` followed by `exit(0)`, when no command was given on the
command line (`cargv` is null): the item is printed. -/
def handle_selection (selection : Str) : Session := Session.exited 0 (some selection)

/-- The loop `for (ptr=favourite; ptr[0]; ptr+=1) display(ptr[0],0);` over the remaining
characters, where `disp` stands for the nested call of `display`: a call that ends the process
ends the loop. -/
def replay (disp : State → Int → Option String → Option Session) :
    Option Session → Str → Option Session
  | acc, [] => acc
  | some (Session.running s), ch :: rest => replay disp (disp s (ofChar ch) none) rest
  | some (Session.exited status output), _ :: _ => some (Session.exited status output)
  | none, _ :: _ => none

/-- `display(c, key)`.  The replay of the favourite calls `display` again for each of its
characters; `fuel` bounds the depth of that nesting and `none` means it was exceeded. -/
def display : Nat → Env → State → Int → Option String → Option Session
  | fuel, env, s, c, key =>
    if c = 10 then
      match s.selection with
      | none => some (Session.exited 1 none)
      | some selection => some (handle_selection selection)
    else
      match env.favourite with
      | none => some (Session.running (displayKey env s c key))
      | some favourite =>
        if c = 59 then
          match fuel with
          | 0 => none
          | fuel + 1 => replay (display fuel env) (some (Session.running s)) favourite
        else some (Session.running (displayKey env s c key))

/-- `re_display()`, i.e. `display(0,0)`. -/
def re_display (env : Env) (s : State) : State := displayKey env s 0 none

/-! ## Main (ppick.c 254-277) -/

/-- The variables when `main` reaches its loop: `match` has just come from `malloc` with the
contents `mem`, the first frame is drawn by `re_display()`, and only then does
`updateResults("")` fill the match cache. -/
def mainInit (env : Env) (mem : List Int) : State :=
  let s0 : State :=
    { match_ := mem, matchCount := 0, fn_pattern := [], fn_flag := 0, selection := none,
      search := [], current := 0, qcnt := 0, top := 0, drawn := [] }
  updateResults env (re_display env s0) []

/-- One turn of the loop of `main` for the key code `c` returned by `getch()`. -/
def keyEvent (fuel : Nat) (env : Env) (s : State) (c : Int) : Option Session :=
  match quit env s c (keyname c) with
  | Session.running s => display fuel env s c (some (keyname c))
  | stopped => some stopped

/-- The loop of `main` over a sequence of key codes; nothing is read after `exit`. -/
def run (fuel : Nat) (env : Env) : Session → List Int → Option Session
  | ses, [] => some ses
  | Session.running s, c :: cs =>
    match keyEvent fuel env s c with
    | some ses => run fuel env ses cs
    | none => none
  | Session.exited status output, _ :: _ => some (Session.exited status output)


/-! ## The specification's vocabulary -/

/-- The specification's `clamp(x, lo, hi)`: `x` brought into the interval from `lo` to `hi`. -/
def specClamp (x lo hi : Int) : Int := if x < lo then lo else if hi < x then hi else x

/-- The specification's match-rank resolver: the item whose 1-based rank among the flagged
items, in original order, is `rank`. -/
def specResolve : List (Str × Int) → Int → Option Str
  | [], _ => none
  | (txt, m) :: rest, rank =>
    if m ≠ 0 then (if rank = 1 then some txt else specResolve rest (rank - 1))
    else specResolve rest rank

/-- The number of flagged items. -/
def flagged (flags : List Int) : Int := ((flags.filter (fun m => m ≠ 0)).length : Int)

/-- The specification's table of navigation keys: the value a key gives the cursor before it
is clamped (move down and up, page down and up, jump to first and to last). -/
def specNav (env : Env) (s : State) (c : Int) : Option Int :=
  if c = KEY_DOWN then some (s.current + 1)
  else if c = KEY_UP then some (s.current - 1)
  else if c = KEY_NPAGE then some (s.current + Int.tdiv env.LINES 2)
  else if c = KEY_PPAGE then some (s.current - Int.tdiv env.LINES 2)
  else if c = KEY_HOME then some 0
  else if c = KEY_END then some s.matchCount
  else none

/-- The specification's printable key: a letter, a digit, a punctuation mark or the space. -/
def specPrintable (c : Int) : Bool := isalnum c || ispunct c || decide (c = 32)

/-- The character a printable key appends: the wildcard `*` for the space, else itself. -/
def specTyped (c : Int) : Char := if c = 32 then '*' else toChar c

/-- Is this one of the key names `display` treats as navigation? -/
def navName (key : Option String) : Bool :=
  decide (key = some "KEY_DOWN" ∨ key = some "KEY_UP" ∨ key = some "KEY_NPAGE" ∨
    key = some "KEY_PPAGE" ∨ key = some "KEY_HOME" ∨ key = some "KEY_END")

/-- Do the exit-key checks of `quit` let every one of these key events through?  Only `qcnt`
is read and written on the way. -/
def exitKeysPass (env : Env) : State → List Int → Bool
  | _, [] => true
  | s, c :: cs =>
    match quit env s c (keyname c) with
    | Session.running s' => exitKeysPass env s' cs
    | Session.exited _ _ => false

/-- A session with the counter of `quit` blanked: what is left is the search string, the
cursor, the match cache, the frame, and how the process ended. -/
def Session.view : Session → Session
  | Session.running s => Session.running { s with qcnt := 0 }
  | Session.exited status output => Session.exited status output

/-- The default GNU/Linux platform with a favourite configured (option `-f`). -/
def gnuFavourite (LINES : Int) (lineTxt : List Str) (favourite : Str) : Env :=
  { gnuDefault LINES lineTxt with favourite := some favourite }

/-! ## Viewport arithmetic -/

theorem middle_eq_specClamp (x hi : Int) :
    middle 0 x hi = specClamp x 0 (if hi > 0 then hi else 0) := by
  unfold middle max min specClamp
  split_ifs <;> omega

theorem layout_current (env : Env) (s : State) :
    (layout env s).current = middle 0 s.current (s.matchCount - 1) := rfl

theorem layout_top (env : Env) (s : State) :
    (layout env s).top =
      middle 0 ((layout env s).current - Int.tdiv env.LINES 2)
        (s.matchCount - env.LINES + 1) := rfl

theorem layout_matchCount (env : Env) (s : State) :
    (layout env s).matchCount = s.matchCount := rfl

theorem layout_match (env : Env) (s : State) : (layout env s).match_ = s.match_ := rfl

theorem layout_search (env : Env) (s : State) : (layout env s).search = s.search := rfl

theorem middle_idem (x hi : Int) : middle 0 (middle 0 x hi) hi = middle 0 x hi := by
  unfold middle max min
  split_ifs <;> omega

theorem layout_idem (env : Env) (s : State) : layout env (layout env s) = layout env s := by
  have h : middle 0 (middle 0 s.current (s.matchCount - 1)) (s.matchCount - 1)
      = middle 0 s.current (s.matchCount - 1) := middle_idem _ _
  simp only [layout, h]

/-- C4. The layout step of `display` leaves `current` equal to
`clamp(cursor, 0, max(matchCount-1, 0))`, which lies between `0` and `max(matchCount-1, 0)`, and
laying out again from the clamped cursor gives the same cursor and the same `top`; this holds
for every match count, every cursor and every terminal height. -/
theorem C4_cursor_clamp_idempotent (env : Env) (s : State) :
    (layout env s).current = specClamp s.current 0 (max (s.matchCount - 1) 0) ∧
    0 ≤ (layout env s).current ∧
    (layout env s).current ≤ max (s.matchCount - 1) 0 ∧
    (layout env (layout env s)).current = (layout env s).current ∧
    (layout env (layout env s)).top = (layout env s).top := by
  refine ⟨?_, ?_, ?_, ?_, ?_⟩
  · rw [layout_current]; unfold middle max min specClamp; split_ifs <;> omega
  · rw [layout_current]; unfold middle max min; split_ifs <;> omega
  · rw [layout_current]; unfold middle max min; split_ifs <;> omega
  · rw [layout_idem]
  · rw [layout_idem]

/-- C5. The scroll offset that `display` computes is
`clamp(current - LINES/2, 0, max(matchCount - LINES + 1, 0))` with truncating division, where
`current` is the clamped cursor; so it lies between `0` and `max(matchCount - LINES + 1, 0)`, and
it is the same whatever the item list and the flag array are, given the match count. -/
theorem C5_top_formula (env : Env) (s : State) (c : Int) (key : Option String)
    (items : List Str) (flags : List Int) :
    (displayKey env s c key).top =
      specClamp ((displayKey env s c key).current - Int.tdiv env.LINES 2) 0
        (max ((displayKey env s c key).matchCount - env.LINES + 1) 0) ∧
    0 ≤ (displayKey env s c key).top ∧
    (displayKey env s c key).top ≤ max ((displayKey env s c key).matchCount - env.LINES + 1) 0 ∧
    (layout { env with lineTxt := items } { s with match_ := flags }).top = (layout env s).top := by
  have ht : (displayKey env s c key).top =
      middle 0 ((displayKey env s c key).current - Int.tdiv env.LINES 2)
        ((displayKey env s c key).matchCount - env.LINES + 1) := by
    unfold displayKey
    rw [layout_top, layout_matchCount]
  refine ⟨?_, ?_, ?_, rfl⟩
  · rw [ht]; unfold middle max min specClamp; split_ifs <;> omega
  · rw [ht]; unfold middle max min; split_ifs <;> omega
  · rw [ht]; unfold middle max min; split_ifs <;> omega

/-! ## Match cache -/

theorem updateLoop_flags (env : Env) (fn_flag : Int) (fn_pattern : Str) (items : List Str)
    (n : Int) :
    (updateLoop env fn_flag fn_pattern items n).1 =
      items.map (fun txt => if env.fnmatch fn_pattern txt fn_flag = 0 then 1 else 0) := by
  induction items generalizing n with
  | nil => rfl
  | cons txt rest ih =>
    by_cases h : env.fnmatch fn_pattern txt fn_flag = 0
    · simp [updateLoop, fn_match, h, ih]
    · simp [updateLoop, fn_match, h, ih]

theorem updateLoop_count (env : Env) (fn_flag : Int) (fn_pattern : Str) (items : List Str)
    (n : Int) :
    (updateLoop env fn_flag fn_pattern items n).2 =
      n + flagged (updateLoop env fn_flag fn_pattern items n).1 := by
  induction items generalizing n with
  | nil => simp [updateLoop, flagged]
  | cons txt rest ih =>
    by_cases h : env.fnmatch fn_pattern txt fn_flag = 0
    · simp only [updateLoop, fn_match, h, decide_True, if_true]
      rw [ih]
      simp [flagged]
      omega
    · simp only [updateLoop, fn_match, h, decide_False]
      rw [if_neg (by simp), ih]
      simp [flagged]

theorem flagged_indicator (P : Str → Prop) [DecidablePred P] (items : List Str) :
    flagged (items.map (fun txt => if P txt then (1 : Int) else 0)) =
      (((items.map (fun txt => if P txt then (1 : Int) else 0)).filter
        (fun m => m = 1)).length : Int) := by
  unfold flagged
  congr 1
  induction items with
  | nil => rfl
  | cons txt rest ih =>
    by_cases h : P txt
    · simp only [List.map_cons, if_pos h]
      rw [List.filter_cons_of_pos (by simp), List.filter_cons_of_pos (by simp)]
      simp only [List.length_cons, ih]
    · simp only [List.map_cons, if_neg h]
      rw [List.filter_cons_of_neg (by simp), List.filter_cons_of_neg (by simp)]
      exact ih

theorem updateResults_match (env : Env) (s : State) (needle : Str) :
    (updateResults env s needle).match_ =
      env.lineTxt.map (fun txt =>
        if env.fnmatch (env.pfx ++ needle ++ env.suffix) txt
            (smartcaseLoop needle env.FNM_CASEFOLD) = 0 then 1 else 0) := by
  simp [updateResults, fn_match_init, updateLoop_flags]

theorem updateResults_matchCount (env : Env) (s : State) (needle : Str) :
    (updateResults env s needle).matchCount = flagged (updateResults env s needle).match_ := by
  simp only [updateResults]
  rw [updateLoop_count]
  simp

/-- C2. After `updateResults(query)` the flag array has one entry per item, the entry of an
item is `1` exactly when `fnmatch` accepts the item against `prefix ++ query ++ suffix` under
the flag just chosen and `0` otherwise, whatever the array held before; `matchCount` is the
number of entries equal to `1`, and it is at least `1` as soon as some item is accepted. -/
theorem C2_updateResults_flags (env : Env) (s : State) (query : Str) :
    (updateResults env s query).fn_pattern = env.pfx ++ query ++ env.suffix ∧
    (updateResults env s query).match_ =
      env.lineTxt.map (fun txt =>
        if env.fnmatch (env.pfx ++ query ++ env.suffix) txt
            (updateResults env s query).fn_flag = 0 then 1 else 0) ∧
    (updateResults env s query).matchCount =
      (((updateResults env s query).match_.filter (fun m => m = 1)).length : Int) ∧
    ((∃ txt ∈ env.lineTxt, env.fnmatch (env.pfx ++ query ++ env.suffix) txt
        (updateResults env s query).fn_flag = 0) → 1 ≤ (updateResults env s query).matchCount) := by
  have hm := updateResults_match env s query
  have hc := updateResults_matchCount env s query
  have hflag : (updateResults env s query).fn_flag = smartcaseLoop query env.FNM_CASEFOLD := rfl
  have hcount : flagged (updateResults env s query).match_ =
      (((updateResults env s query).match_.filter (fun m => m = 1)).length : Int) := by
    rw [hm]
    exact flagged_indicator _ _
  refine ⟨rfl, ?_, ?_, ?_⟩
  · rw [hflag]; exact hm
  · rw [hc, hcount]
  · rintro ⟨txt, hmem, hacc⟩
    rw [hc, hcount, hm]
    rw [hflag] at hacc
    have : (1 : Int) ∈ env.lineTxt.map (fun txt =>
        if env.fnmatch (env.pfx ++ query ++ env.suffix) txt
            (smartcaseLoop query env.FNM_CASEFOLD) = 0 then (1 : Int) else 0) :=
      List.mem_map.mpr ⟨txt, hmem, if_pos hacc⟩
    have hpos : 0 < (List.filter (fun m => decide (m = 1)) (env.lineTxt.map (fun txt =>
        if env.fnmatch (env.pfx ++ query ++ env.suffix) txt
            (smartcaseLoop query env.FNM_CASEFOLD) = 0 then (1 : Int) else 0))).length :=
      List.length_pos_of_mem (List.mem_filter.mpr ⟨this, by simp⟩)
    omega

/-! ## Smartcase -/

theorem smartcaseLoop_zero (needle : Str) : smartcaseLoop needle 0 = 0 := by
  cases needle <;> simp [smartcaseLoop]

theorem smartcaseLoop_eq (needle : Str) (cf : Int) (hcf : cf ≠ 0) :
    smartcaseLoop needle cf = if ∀ ch ∈ needle, isupper (ofChar ch) = false then cf else 0 := by
  induction needle with
  | nil => simp [smartcaseLoop]
  | cons ch rest ih =>
    by_cases hu : isupper (ofChar ch) = true
    · simp [smartcaseLoop, hcf, hu, smartcaseLoop_zero]
    · simp only [Bool.not_eq_true] at hu
      simp [smartcaseLoop, hcf, hu, ih]

/-! ## Patterns made of `*` and ordinary characters -/

theorem anyTail_iff (f : Str → Bool) (s : Str) :
    anyTail f s = true ↔ ∃ t, t <:+ s ∧ f t = true := by
  induction s with
  | nil =>
    simp only [anyTail]
    constructor
    · intro h; exact ⟨[], List.suffix_refl _, h⟩
    · rintro ⟨t, ht, hf⟩
      have : t = [] := List.eq_nil_of_suffix_nil ht
      subst this; exact hf
  | cons d s ih =>
    simp only [anyTail, Bool.or_eq_true, ih]
    constructor
    · rintro (h | ⟨t, ht, hf⟩)
      · exact ⟨d :: s, List.suffix_refl _, h⟩
      · exact ⟨t, ht.trans (List.suffix_cons d s), hf⟩
    · rintro ⟨t, ht, hf⟩
      rcases List.suffix_cons_iff.mp ht with h | h
      · left; rw [← h]; exact hf
      · right; exact ⟨t, h, hf⟩

theorem matchToks_lits_star (cf : Bool) (lits s : Str) :
    matchToks cf (lits.map Tok.lit ++ [Tok.star]) s = true ↔
      lits.map (fold cf) <+: s.map (fold cf) := by
  induction lits generalizing s with
  | nil =>
    simp only [List.map_nil, List.nil_append, matchToks, List.nil_prefix, iff_true]
    rw [anyTail_iff]
    exact ⟨[], List.nil_suffix, rfl⟩
  | cons c lits ih =>
    cases s with
    | nil => simp [matchToks]
    | cons d s =>
      have ih' := ih s
      simp only [List.map_cons, List.cons_append, matchToks, Bool.and_eq_true, beq_iff_eq,
        List.cons_prefix_cons]
      exact and_congr_right (fun _ => ih')

theorem matchToks_star_lits_star (cf : Bool) (lits s : Str) :
    matchToks cf (Tok.star :: (lits.map Tok.lit ++ [Tok.star])) s = true ↔
      lits.map (fold cf) <:+: s.map (fold cf) := by
  simp only [matchToks]
  rw [anyTail_iff]
  constructor
  · rintro ⟨t, ht, hm⟩
    rw [matchToks_lits_star] at hm
    exact List.infix_iff_prefix_suffix.mpr ⟨t.map (fold cf), hm, ht.map _⟩
  · intro h
    obtain ⟨t, hp, hs⟩ := List.infix_iff_prefix_suffix.mp h
    refine ⟨s.drop (s.length - t.length), List.drop_suffix _ _, ?_⟩
    rw [matchToks_lits_star]
    have := List.suffix_iff_eq_drop.mp hs
    rw [List.length_map, ← List.map_drop] at this
    rw [← this]
    exact hp

theorem fnmatch_star_abc_star (item : Str) :
    fnmatch ['*', 'a', 'b', 'c', '*'] item 16 = 0 ↔ ['a', 'b', 'c'] <:+: item.map Char.toLower := by
  have ht : tokens 6 ['*', 'a', 'b', 'c', '*'] =
      Tok.star :: (['a', 'b', 'c'].map Tok.lit ++ [Tok.star]) := by decide
  have hf : (decide ((16 : Int) / 16 % 2 = 1)) = true := by decide
  have hfold : fold true = Char.toLower := by funext c; simp [fold]
  have hl : ['a', 'b', 'c'].map Char.toLower = ['a', 'b', 'c'] := by decide
  unfold fnmatch
  simp only [List.length_cons, List.length_nil, hf]
  rw [show 0 + 1 + 1 + 1 + 1 + 1 + 1 = 6 from rfl, ht]
  have h := matchToks_star_lits_star true ['a', 'b', 'c'] item
  rw [hfold, hl] at h
  rw [← h]
  split_ifs with hm
  · exact iff_of_true rfl hm
  · exact iff_of_false (by decide) hm

theorem fnmatch_star_ABC_star (item : Str) :
    fnmatch ['*', 'A', 'B', 'C', '*'] item 0 = 0 ↔ ['A', 'B', 'C'] <:+: item := by
  have ht : tokens 6 ['*', 'A', 'B', 'C', '*'] =
      Tok.star :: (['A', 'B', 'C'].map Tok.lit ++ [Tok.star]) := by decide
  have hf : (decide ((0 : Int) / 16 % 2 = 1)) = false := by decide
  have hfold : fold false = id := by funext c; simp [fold]
  unfold fnmatch
  simp only [List.length_cons, List.length_nil, hf]
  rw [show 0 + 1 + 1 + 1 + 1 + 1 + 1 = 6 from rfl, ht]
  have h := matchToks_star_lits_star false ['A', 'B', 'C'] item
  rw [hfold, List.map_id, List.map_id] at h
  rw [← h]
  split_ifs with hm
  · exact iff_of_true rfl hm
  · exact iff_of_false (by decide) hm

/-! ## Key handling -/

theorem keyname_byte_length (c : Int) (h : 0 ≤ c ∧ c < 256) : (keyname c).length ≤ 2 := by
  unfold keyname KEY_DOWN KEY_UP KEY_HOME KEY_BACKSPACE KEY_NPAGE KEY_PPAGE KEY_END
  split_ifs <;> first | omega | decide | exact Nat.le_refl 2 | exact Nat.le_succ 1

theorem short_name_not_nav (kn : String) (h : kn.length ≤ 2) : navName (some kn) = false := by
  have hl : ∀ t : String, 2 < t.length → ¬ kn = t := by
    intro t ht he
    rw [he] at h
    omega
  unfold navName
  simp only [Option.some.injEq, decide_eq_false_iff_not, not_or]
  refine ⟨hl _ ?_, hl _ ?_, hl _ ?_, hl _ ?_, hl _ ?_, hl _ ?_⟩ <;> decide

theorem keyname_byte_not_nav (c : Int) (h : 0 ≤ c ∧ c < 256) :
    navName (some (keyname c)) = false :=
  short_name_not_nav _ (keyname_byte_length c h)

theorem keyname_printable_not_nav (c : Int) (h : 32 ≤ c ∧ c < 127) :
    navName (some (keyname c)) = false :=
  keyname_byte_not_nav c ⟨by omega, by omega⟩

theorem keyname_none_not_nav : navName none = false := by decide

theorem keyname_backspace_not_nav : navName (some (keyname KEY_BACKSPACE)) = false := by decide

theorem specPrintable_range (c : Int) (h : specPrintable c = true) : 32 ≤ c ∧ c < 127 := by
  unfold specPrintable isalnum ispunct at h
  simp only [Bool.or_eq_true, decide_eq_true_eq] at h
  omega

theorem specPrintable_typed (c : Int) (h : specPrintable c = true) :
    (isalnum (if c = 32 then 42 else c) || ispunct (if c = 32 then 42 else c)) = true ∧
    (if c = 32 then 42 else c) ≠ KEY_BACKSPACE ∧
    toChar (if c = 32 then 42 else c) = specTyped c := by
  unfold specPrintable at h
  unfold specTyped KEY_BACKSPACE
  by_cases h32 : c = 32
  · subst h32; decide
  · simp only [h32, decide_False, Bool.or_false, if_false] at h ⊢
    refine ⟨h, ?_, trivial⟩
    have := specPrintable_range c (by unfold specPrintable; simp [h])
    omega

/-- A printable key appends its character, resets `current` and refreshes the match cache. -/
theorem keyEdit_printable (env : Env) (s : State) (c : Int) (key : Option String)
    (hc : specPrintable c = true) (hk : navName key = false) :
    keyEdit env s c key =
      updateResults env { s with search := s.search ++ [specTyped c], current := 0 }
        (s.search ++ [specTyped c]) := by
  obtain ⟨hp, hb, ht⟩ := specPrintable_typed c hc
  unfold navName at hk
  simp only [decide_eq_false_iff_not, not_or] at hk
  obtain ⟨h1, h2, h3, h4, h5, h6⟩ := hk
  have htake : (s.search ++ [specTyped c]).take ((s.search.length : Int) + 1).toNat =
      s.search ++ [specTyped c] := by
    apply List.take_of_length_le
    simp only [List.length_append, List.length_cons, List.length_nil]
    omega
  unfold keyEdit navigate
  simp only [if_neg h1, if_neg h2, if_neg h3, if_neg h4, if_neg h5, if_neg h6, hp, hb, ht,
    if_true, false_and, if_false, ne_eq, one_ne_zero, not_false_eq_true, htake]

/-- The erase key on a non-empty search string removes its last character, resets `current`
and refreshes the match cache. -/
theorem keyEdit_erase (env : Env) (s : State) (key : Option String)
    (hs : s.search ≠ []) (hk : navName key = false) :
    keyEdit env s KEY_BACKSPACE key =
      updateResults env { s with search := s.search.dropLast, current := 0 }
        s.search.dropLast := by
  unfold navName at hk
  simp only [decide_eq_false_iff_not, not_or] at hk
  obtain ⟨h1, h2, h3, h4, h5, h6⟩ := hk
  have hlen : 0 < s.search.length := List.length_pos.mpr hs
  have h32 : ¬ KEY_BACKSPACE = 32 := by decide
  have hp : (isalnum KEY_BACKSPACE || ispunct KEY_BACKSPACE) = false := by decide
  have htake : s.search.take ((s.search.length : Int) + -1).toNat = s.search.dropLast := by
    rw [List.dropLast_eq_take]
    congr 1
    omega
  unfold keyEdit navigate
  simp only [if_neg h1, if_neg h2, if_neg h3, if_neg h4, if_neg h5, if_neg h6, h32, hp, hlen,
    if_false, and_self, if_true, ne_eq, htake, Bool.false_eq_true]
  simp

/-- The erase key on an empty search string changes nothing. -/
theorem keyEdit_erase_empty (env : Env) (s : State) (key : Option String)
    (hs : s.search = []) (hk : navName key = false) :
    keyEdit env s KEY_BACKSPACE key = s := by
  unfold navName at hk
  simp only [decide_eq_false_iff_not, not_or] at hk
  obtain ⟨h1, h2, h3, h4, h5, h6⟩ := hk
  have h32 : ¬ KEY_BACKSPACE = 32 := by decide
  have hp : (isalnum KEY_BACKSPACE || ispunct KEY_BACKSPACE) = false := by decide
  have hlen : ¬ (0 < s.search.length) := by rw [hs]; simp
  unfold keyEdit navigate
  simp only [if_neg h1, if_neg h2, if_neg h3, if_neg h4, if_neg h5, if_neg h6, h32, hp, hlen,
    if_false, and_false, ne_eq, not_true_eq_false, Bool.false_eq_true]

/-- A navigation key moves `current` and touches nothing else. -/
theorem keyEdit_nav (env : Env) (s : State) (c t : Int) (h : specNav env s c = some t) :
    keyEdit env s c (some (keyname c)) = { s with current := t } := by
  have hp : (isalnum 0 || ispunct 0) = false := by decide
  unfold specNav at h
  split_ifs at h with h1 h2 h3 h4 h5 h6
  all_goals
    subst c
    simp only [Option.some.injEq] at h
    subst t
    simp [keyEdit, navigate, keyname, KEY_DOWN, KEY_UP, KEY_NPAGE, KEY_PPAGE, KEY_HOME, KEY_END,
      KEY_BACKSPACE, isalnum, ispunct]

theorem display_plain (fuel : Nat) (env : Env) (s : State) (c : Int) (key : Option String)
    (hnl : c ≠ 10) (hfav : c = 59 → env.favourite = none) :
    display fuel env s c key = some (Session.running (displayKey env s c key)) := by
  cases fuel <;>
  · unfold display
    rw [if_neg hnl]
    cases hf : env.favourite with
    | none => rfl
    | some fav =>
      have : c ≠ 59 := fun h => by simp [hfav h] at hf
      simp only [if_neg this]

theorem layout_after_update (env : Env) (s : State) (q : Str) :
    (layout env (updateResults env { s with search := q, current := 0 } q)).search = q ∧
    (layout env (updateResults env { s with search := q, current := 0 } q)).current = 0 ∧
    (layout env (updateResults env { s with search := q, current := 0 } q)).match_ =
      env.lineTxt.map (fun txt =>
        if env.fnmatch (env.pfx ++ q ++ env.suffix) txt
            (smartcaseLoop q env.FNM_CASEFOLD) = 0 then 1 else 0) ∧
    (layout env (updateResults env { s with search := q, current := 0 } q)).matchCount =
      flagged (layout env (updateResults env { s with search := q, current := 0 } q)).match_ := by
  refine ⟨rfl, ?_, ?_, ?_⟩
  · rw [layout_current]
    have : (updateResults env { s with search := q, current := 0 } q).current = 0 := rfl
    rw [this]
    unfold middle max min
    split_ifs <;> omega
  · rw [layout_match, updateResults_match]
  · rw [layout_matchCount, layout_match, updateResults_matchCount]

/-- C6. A key that changes the search string (a printable character, appended with the space
turned into `*`, or the erase key on a non-empty string) makes `display` refresh the match cache
for the new string and only then lay out the frame, with `current` back at `0`.  A key that does
not change it (the six navigation keys, or the erase key on an empty string) leaves the search
string, the flags and `matchCount` as they were, and `current` is the clamped navigation target
instead of being reset. -/
theorem C6_query_change_resets (fuel : Nat) (env : Env) (s : State) :
    (∀ (c : Int) (key : Option String), specPrintable c = true →
        (c = 59 → env.favourite = none) → (key = none ∨ key = some (keyname c)) →
        display fuel env s c key = some (Session.running (layout env (updateResults env
          { s with search := s.search ++ [specTyped c], current := 0 }
          (s.search ++ [specTyped c]))))) ∧
    (s.search ≠ [] →
        display fuel env s KEY_BACKSPACE (some (keyname KEY_BACKSPACE)) =
          some (Session.running (layout env (updateResults env
            { s with search := s.search.dropLast, current := 0 } s.search.dropLast)))) ∧
    (∀ q : Str,
        (layout env (updateResults env { s with search := q, current := 0 } q)).search = q ∧
        (layout env (updateResults env { s with search := q, current := 0 } q)).current = 0 ∧
        (layout env (updateResults env { s with search := q, current := 0 } q)).match_ =
          env.lineTxt.map (fun txt =>
            if env.fnmatch (env.pfx ++ q ++ env.suffix) txt
                (smartcaseLoop q env.FNM_CASEFOLD) = 0 then 1 else 0) ∧
        (layout env (updateResults env { s with search := q, current := 0 } q)).matchCount =
          flagged
            (layout env (updateResults env { s with search := q, current := 0 } q)).match_) ∧
    (∀ c t : Int, specNav env s c = some t →
        display fuel env s c (some (keyname c)) =
          some (Session.running (layout env { s with current := t }))) ∧
    (s.search = [] →
        display fuel env s KEY_BACKSPACE (some (keyname KEY_BACKSPACE)) =
          some (Session.running (layout env s))) ∧
    (∀ t : Int,
        (layout env { s with current := t }).search = s.search ∧
        (layout env { s with current := t }).match_ = s.match_ ∧
        (layout env { s with current := t }).matchCount = s.matchCount ∧
        (layout env { s with current := t }).current =
          specClamp t 0 (max (s.matchCount - 1) 0)) := by
  refine ⟨?_, ?_, fun q => layout_after_update env s q, ?_, ?_, ?_⟩
  · intro c key hc hfav hkey
    have hr := specPrintable_range c hc
    have hk : navName key = false := by
      rcases hkey with h | h
      · rw [h]; exact keyname_none_not_nav
      · rw [h]; exact keyname_printable_not_nav c hr
    rw [display_plain fuel env s c key (by omega) hfav]
    unfold displayKey
    rw [keyEdit_printable env s c key hc hk]
  · intro hs
    rw [display_plain fuel env s KEY_BACKSPACE _ (by decide)
      (fun h => absurd h (by decide))]
    unfold displayKey
    rw [keyEdit_erase env s _ hs keyname_backspace_not_nav]
  · intro c t h
    have hc : c ≠ 10 ∧ c ≠ 59 := by
      unfold specNav KEY_DOWN KEY_UP KEY_NPAGE KEY_PPAGE KEY_HOME KEY_END at h
      split_ifs at h <;> omega
    rw [display_plain fuel env s c _ hc.1 (fun h59 => absurd h59 hc.2)]
    unfold displayKey
    rw [keyEdit_nav env s c t h]
  · intro hs
    rw [display_plain fuel env s KEY_BACKSPACE _ (by decide)
      (fun h => absurd h (by decide))]
    unfold displayKey
    rw [keyEdit_erase_empty env s _ hs keyname_backspace_not_nav]
  · intro t
    refine ⟨rfl, rfl, rfl, ?_⟩
    rw [layout_current]
    unfold middle max min specClamp
    simp only
    split_ifs <;> omega

/-- C9, as the code has it. When no favourite is configured the trigger character `;` is an
ordinary punctuation mark: `display` appends it to the search string, resets `current` to `0`
and refreshes the match cache for the new string before laying out the frame. -/
theorem C9_semicolon_without_favourite (fuel : Nat) (env : Env) (s : State)
    (key : Option String) (hfav : env.favourite = none)
    (hkey : key = none ∨ key = some (keyname 59)) :
    display fuel env s 59 key = some (Session.running (layout env (updateResults env
      { s with search := s.search ++ [';'], current := 0 } (s.search ++ [';'])))) ∧
    (layout env (updateResults env
      { s with search := s.search ++ [';'], current := 0 } (s.search ++ [';']))).search =
        s.search ++ [';'] ∧
    (layout env (updateResults env
      { s with search := s.search ++ [';'], current := 0 } (s.search ++ [';']))).current = 0 := by
  have hk : navName key = false := by
    rcases hkey with h | h
    · rw [h]; exact keyname_none_not_nav
    · rw [h]; decide
  refine ⟨?_, rfl, (layout_after_update env s _).2.1⟩
  rw [display_plain fuel env s 59 key (by decide) (fun _ => hfav)]
  unfold displayKey
  rw [keyEdit_printable env s 59 key (by decide) hk]
  rfl

/-! ## The loop of `main` -/

theorem run_append (fuel : Nat) (env : Env) (ses : Session) (ks ks' : List Int) :
    run fuel env ses (ks ++ ks') = (run fuel env ses ks).bind (fun r => run fuel env r ks') := by
  induction ks generalizing ses with
  | nil => cases ses <;> simp [run]
  | cons c cs ih =>
    cases ses with
    | running s =>
      simp only [List.cons_append, run]
      cases hk : keyEvent fuel env s c with
      | none => rfl
      | some r => exact ih r
    | exited status output =>
      simp only [List.cons_append, run, Option.some_bind]
      cases ks' <;> rfl

theorem run_exited (fuel : Nat) (env : Env) (status : Int) (output : Option Str)
    (ks : List Int) :
    run fuel env (Session.exited status output) ks = some (Session.exited status output) := by
  cases ks <;> rfl

theorem run_single (fuel : Nat) (env : Env) (s : State) (c : Int) :
    run fuel env (Session.running s) [c] = keyEvent fuel env s c := by
  simp only [run]
  cases keyEvent fuel env s c with
  | none => rfl
  | some r => cases r <;> rfl

theorem keyEdit_qcnt (env : Env) (s : State) (c : Int) (key : Option String) :
    (keyEdit env s c key).qcnt = s.qcnt := by
  unfold keyEdit
  simp only
  split_ifs <;> rfl

theorem displayKey_qcnt (env : Env) (s : State) (c : Int) (key : Option String) :
    (displayKey env s c key).qcnt = s.qcnt := keyEdit_qcnt env s c key

theorem display_confirm (fuel : Nat) (env : Env) (s : State) (key : Option String) :
    display fuel env s 10 key =
      match s.selection with
      | none => some (Session.exited 1 none)
      | some selection => some (Session.exited 0 (some selection)) := by
  cases fuel <;> (unfold display; rw [if_pos rfl]; rfl)

theorem display_replay (fuel : Nat) (env : Env) (s : State) (key : Option String) (fav : Str)
    (hf : env.favourite = some fav) :
    display (fuel + 1) env s 59 key =
      replay (display fuel env) (some (Session.running s)) fav := by
  unfold display
  rw [if_neg (by decide)]
  simp only [hf, if_true]

theorem display_replay_zero (env : Env) (s : State) (key : Option String) (fav : Str)
    (hf : env.favourite = some fav) : display 0 env s 59 key = none := by
  unfold display
  rw [if_neg (by decide)]
  simp only [hf, if_true]

theorem replay_stuck (disp : State → Int → Option String → Option Session) (fav : Str)
    (r : Option Session) (hr : ∀ s, r ≠ some (Session.running s)) : replay disp r fav = r := by
  cases fav with
  | nil => simp only [replay]
  | cons ch rest =>
    cases r with
    | none => simp only [replay]
    | some ses =>
      cases ses with
      | running s => exact absurd rfl (hr s)
      | exited status output => simp only [replay]

theorem replay_qcnt (disp : State → Int → Option String → Option Session)
    (hd : ∀ s c key s', disp s c key = some (Session.running s') → s'.qcnt = s.qcnt)
    (fav : Str) (s s' : State)
    (h : replay disp (some (Session.running s)) fav = some (Session.running s')) :
    s'.qcnt = s.qcnt := by
  induction fav generalizing s with
  | nil =>
    simp only [replay, Option.some.injEq, Session.running.injEq] at h
    rw [h]
  | cons ch rest ih =>
    simp only [replay] at h
    cases hr : disp s (ofChar ch) none with
    | none =>
      rw [hr, replay_stuck disp rest none (by simp)] at h
      simp at h
    | some r =>
      rw [hr] at h
      cases r with
      | running s1 => rw [ih s1 h, hd s _ _ s1 hr]
      | exited status output =>
        rw [replay_stuck disp rest _ (by simp)] at h
        simp at h

theorem display_qcnt (fuel : Nat) (env : Env) (s : State) (c : Int) (key : Option String)
    (s' : State) (h : display fuel env s c key = some (Session.running s')) :
    s'.qcnt = s.qcnt := by
  induction fuel generalizing s c key s' with
  | zero =>
    by_cases h10 : c = 10
    · subst h10
      rw [display_confirm] at h
      cases hs : s.selection <;> simp [hs] at h
    · by_cases h59 : c = 59 ∧ env.favourite.isSome = true
      · obtain ⟨hc, hfs⟩ := h59
        obtain ⟨fav, hf⟩ := Option.isSome_iff_exists.mp hfs
        subst hc
        rw [display_replay_zero env s key fav hf] at h
        simp at h
      · rw [display_plain 0 env s c key h10 (fun hc => by
          cases hf : env.favourite with
          | none => rfl
          | some fav => exact absurd ⟨hc, by simp [hf]⟩ h59)] at h
        simp only [Option.some.injEq, Session.running.injEq] at h
        rw [← h]; exact displayKey_qcnt env s c key
  | succ n ih =>
    by_cases h10 : c = 10
    · subst h10
      rw [display_confirm] at h
      cases hs : s.selection <;> simp [hs] at h
    · by_cases h59 : c = 59 ∧ env.favourite.isSome = true
      · obtain ⟨hc, hfs⟩ := h59
        obtain ⟨fav, hf⟩ := Option.isSome_iff_exists.mp hfs
        subst hc
        rw [display_replay n env s key fav hf] at h
        exact replay_qcnt (display n env) (fun s c key s' => ih s c key s') fav s s' h
      · rw [display_plain (n + 1) env s c key h10 (fun hc => by
          cases hf : env.favourite with
          | none => rfl
          | some fav => exact absurd ⟨hc, by simp [hf]⟩ h59)] at h
        simp only [Option.some.injEq, Session.running.injEq] at h
        rw [← h]; exact displayKey_qcnt env s c key

theorem quit_cases (env : Env) (s : State) (c : Int) (kn : String) :
    quit env s c kn = Session.exited 1 none ∨
    quit env s c kn = Session.running { s with qcnt :=
      if env.qq_quits ≠ 0 then (if c = 113 then s.qcnt + 1 else 0) else s.qcnt } := by
  unfold quit
  split_ifs <;> simp

theorem keyEvent_qcnt (fuel : Nat) (env : Env) (s s' : State) (c : Int)
    (hq : env.qq_quits ≠ 0) (h : keyEvent fuel env s c = some (Session.running s')) :
    s'.qcnt ≠ 0 ↔ c = 113 := by
  unfold keyEvent at h
  by_cases hdie : env.qq_quits ≠ 0 ∧ c = 113 ∧ s.qcnt ≠ 0
  · simp [quit, hdie] at h
  · by_cases hesc : c = 27 ∨ keyname c = "^C"
    · simp [quit, hdie, hesc] at h
    · have hquit : quit env s c (keyname c) = Session.running { s with qcnt :=
          if env.qq_quits ≠ 0 then (if c = 113 then s.qcnt + 1 else 0) else s.qcnt } := by
        unfold quit
        rw [if_neg hdie]
        simp only [hesc, if_false]
      rw [hquit] at h
      have := display_qcnt fuel env _ c _ s' h
      rw [this]
      simp only [if_pos hq]
      by_cases hc : c = 113
      · have h0 : s.qcnt = 0 := by
          by_contra hne
          exact hdie ⟨hq, hc, hne⟩
        simp [hc, h0]
      · simp [hc]

theorem keyEvent_q (fuel : Nat) (env : Env) (s : State) :
    (env.qq_quits ≠ 0 ∧ s.qcnt ≠ 0 → keyEvent fuel env s 113 = some (Session.exited 1 none)) ∧
    (¬ (env.qq_quits ≠ 0 ∧ s.qcnt ≠ 0) →
      ∃ s', keyEvent fuel env s 113 = some (Session.running s') ∧
        s'.search = s.search ++ ['q']) := by
  constructor
  · intro h
    simp [keyEvent, quit, h]
  · intro h
    have hdie : ¬ (env.qq_quits ≠ 0 ∧ (113 : Int) = 113 ∧ s.qcnt ≠ 0) := fun hh => h ⟨hh.1, hh.2.2⟩
    have hesc : ¬ ((113 : Int) = 27 ∨ keyname 113 = "^C") := by decide
    have hquit : quit env s 113 (keyname 113) = Session.running { s with qcnt :=
        if env.qq_quits ≠ 0 then (if (113 : Int) = 113 then s.qcnt + 1 else 0) else s.qcnt } := by
      unfold quit
      rw [if_neg hdie]
      simp only [hesc, if_false]
    unfold keyEvent
    rw [hquit]
    simp only
    rw [display_plain fuel env _ 113 _ (by decide) (fun h => absurd h (by decide))]
    refine ⟨_, rfl, ?_⟩
    unfold displayKey
    rw [layout_search, keyEdit_printable env _ 113 _ (by decide) (by decide)]
    rfl

theorem mainInit_qcnt (env : Env) (mem : List Int) : (mainInit env mem).qcnt = 0 := by
  exact displayKey_qcnt env _ 0 none

theorem run_alive_qcnt (fuel : Nat) (env : Env) (s0 s : State) (ks : List Int)
    (hq : env.qq_quits ≠ 0) (h0 : s0.qcnt = 0)
    (hrun : run fuel env (Session.running s0) ks = some (Session.running s)) :
    s.qcnt ≠ 0 ↔ ks.getLast? = some 113 := by
  rcases List.eq_nil_or_concat ks with hnil | ⟨init, c, hks⟩
  · subst hnil
    simp only [run, Option.some.injEq, Session.running.injEq] at hrun
    subst hrun
    simp [h0]
  · subst hks
    rw [List.concat_eq_append] at hrun ⊢
    rw [run_append] at hrun
    cases hinit : run fuel env (Session.running s0) init with
    | none => rw [hinit] at hrun; simp at hrun
    | some r =>
      rw [hinit] at hrun
      simp only [Option.some_bind] at hrun
      cases r with
      | exited status output => rw [run_exited] at hrun; simp at hrun
      | running s1 =>
        rw [run_single] at hrun
        rw [keyEvent_qcnt fuel env s1 s c hq hrun]
        simp

theorem run_q_disabled (fuel : Nat) (env : Env) (hq : env.qq_quits = 0) (n : Nat) (s : State) :
    ∃ s', run fuel env (Session.running s) (List.replicate n 113) = some (Session.running s') ∧
      s'.search = s.search ++ List.replicate n 'q' := by
  induction n generalizing s with
  | zero => exact ⟨s, rfl, by simp⟩
  | succ n ih =>
    obtain ⟨s1, h1, hs1⟩ := (keyEvent_q fuel env s).2 (fun h => h.1 hq)
    obtain ⟨s2, h2, hs2⟩ := ih s1
    refine ⟨s2, ?_, ?_⟩
    · rw [List.replicate_succ]
      simp only [run, h1]
      exact h2
    · rw [hs2, hs1, List.replicate_succ, List.append_assoc]
      rfl

/-- C10. In a session that is still running after the key events `ks`: with `qq_quits` set, a
further `q` ends the process with status 1 and no output exactly when the last key event was
also `q`, and otherwise it is appended to the search string; with `qq_quits` cleared (`-Q`), any
number of further `q`s leaves the session running and appends each of them. -/
theorem C10_double_q (fuel : Nat) (env : Env) (mem : List Int) (ks : List Int) (s : State)
    (hrun : run fuel env (Session.running (mainInit env mem)) ks = some (Session.running s)) :
    (env.qq_quits ≠ 0 →
      (ks.getLast? = some 113 →
        run fuel env (Session.running (mainInit env mem)) (ks ++ [113]) =
          some (Session.exited 1 none)) ∧
      (ks.getLast? ≠ some 113 →
        ∃ s', run fuel env (Session.running (mainInit env mem)) (ks ++ [113]) =
            some (Session.running s') ∧
          s'.search = s.search ++ ['q'])) ∧
    (env.qq_quits = 0 → ∀ n : Nat,
        ∃ s', run fuel env (Session.running (mainInit env mem)) (ks ++ List.replicate n 113) =
            some (Session.running s') ∧
          s'.search = s.search ++ List.replicate n 'q') := by
  have hstep : run fuel env (Session.running (mainInit env mem)) (ks ++ [113]) =
      keyEvent fuel env s 113 := by
    rw [run_append, hrun, Option.some_bind, run_single]
  refine ⟨fun hq => ⟨fun hlast => ?_, fun hlast => ?_⟩, fun hq n => ?_⟩
  · rw [hstep]
    have hqc := (run_alive_qcnt fuel env _ s ks hq (mainInit_qcnt env mem) hrun).mpr hlast
    exact (keyEvent_q fuel env s).1 ⟨hq, hqc⟩
  · rw [hstep]
    have hqc : ¬ s.qcnt ≠ 0 := fun h =>
      hlast ((run_alive_qcnt fuel env _ s ks hq (mainInit_qcnt env mem) hrun).mp h)
    exact (keyEvent_q fuel env s).2 (fun h => hqc h.2)
  · rw [run_append, hrun, Option.some_bind]
    exact run_q_disabled fuel env hq n s

/-- C10 at a concrete session: `apple`, `banana`, `grape` on a 24-line terminal with the
default options, after the keys `a` and `q`. -/
theorem C10_double_q_witness :
    ∃ s, run 0 (gnuDefault 24 ["apple".toList, "banana".toList, "grape".toList])
        (Session.running
          (mainInit (gnuDefault 24 ["apple".toList, "banana".toList, "grape".toList]) [0, 0, 0]))
        [97, 113] = some (Session.running s) ∧
      s.search = ['a', 'q'] ∧
      run 0 (gnuDefault 24 ["apple".toList, "banana".toList, "grape".toList])
        (Session.running
          (mainInit (gnuDefault 24 ["apple".toList, "banana".toList, "grape".toList]) [0, 0, 0]))
        ([97, 113] ++ [113]) = some (Session.exited 1 none) :=
  ⟨_, rfl, rfl,
    ((C10_double_q 0 (gnuDefault 24 ["apple".toList, "banana".toList, "grape".toList]) [0, 0, 0]
      [97, 113] _ rfl).1 (by decide)).1 (by decide)⟩

/-- C3. Where the C library has `FNM_CASEFOLD`, `fn_match_init` leaves `fn_flag` at
`FNM_CASEFOLD` exactly when the query has no upper-case letter and at `0` exactly when it has
one, whatever `prefix` and `suffix` are.  With the GNU matcher and the default `*` around the
query, the query `abc` accepts exactly the items that contain `abc` once letter case is
ignored, and the query `ABC` exactly the items that contain `ABC` as written. -/
theorem C3_smartcase (env : Env) (hcf : env.FNM_CASEFOLD ≠ 0) (query p q : Str)
    (LINES : Int) (items : List Str) (item : Str) :
    ((fn_match_init env query).1 = env.FNM_CASEFOLD ↔
      ∀ ch ∈ query, isupper (ofChar ch) = false) ∧
    ((fn_match_init env query).1 = 0 ↔ ∃ ch ∈ query, isupper (ofChar ch) = true) ∧
    (fn_match_init { env with pfx := p, suffix := q } query).1 = (fn_match_init env query).1 ∧
    (fn_match (gnuDefault LINES items)
        (fn_match_init (gnuDefault LINES items) ['a', 'b', 'c']).1
        (fn_match_init (gnuDefault LINES items) ['a', 'b', 'c']).2 item = true ↔
      ['a', 'b', 'c'] <:+: item.map Char.toLower) ∧
    (fn_match (gnuDefault LINES items)
        (fn_match_init (gnuDefault LINES items) ['A', 'B', 'C']).1
        (fn_match_init (gnuDefault LINES items) ['A', 'B', 'C']).2 item = true ↔
      ['A', 'B', 'C'] <:+: item) := by
  have hflag : (fn_match_init env query).1 =
      if ∀ ch ∈ query, isupper (ofChar ch) = false then env.FNM_CASEFOLD else 0 :=
    smartcaseLoop_eq query env.FNM_CASEFOLD hcf
  refine ⟨?_, ?_, rfl, ?_, ?_⟩
  · rw [hflag]
    split_ifs with h
    · exact iff_of_true rfl h
    · exact iff_of_false (fun h0 => hcf h0.symm) h
  · rw [hflag]
    split_ifs with h
    · refine iff_of_false hcf ?_
      rintro ⟨ch, hm, hu⟩
      rw [h ch hm] at hu
      exact absurd hu (by decide)
    · refine iff_of_true rfl ?_
      by_contra hne
      apply h
      intro ch hm
      by_contra hu
      exact hne ⟨ch, hm, by simpa using hu⟩
  · have h1 : (fn_match_init (gnuDefault LINES items) ['a', 'b', 'c']).1 = 16 := by
      show smartcaseLoop ['a', 'b', 'c'] 16 = 16
      decide
    have h2 : (fn_match_init (gnuDefault LINES items) ['a', 'b', 'c']).2 =
        ['*', 'a', 'b', 'c', '*'] := rfl
    rw [h1, h2, ← fnmatch_star_abc_star]
    unfold fn_match gnuDefault
    simp only [decide_eq_true_eq]
  · have h1 : (fn_match_init (gnuDefault LINES items) ['A', 'B', 'C']).1 = 0 := by
      show smartcaseLoop ['A', 'B', 'C'] 16 = 0
      decide
    have h2 : (fn_match_init (gnuDefault LINES items) ['A', 'B', 'C']).2 =
        ['*', 'A', 'B', 'C', '*'] := rfl
    rw [h1, h2, ← fnmatch_star_ABC_star]
    unfold fn_match gnuDefault
    simp only [decide_eq_true_eq]

/-- C3 at a concrete input: on GNU/Linux the query `aBc` selects case-sensitive matching, and
the item `xAbCy` is accepted by the query `abc` but not by the query `ABC`. -/
theorem C3_smartcase_witness :
    (gnuDefault 24 []).FNM_CASEFOLD ≠ 0 ∧
    (fn_match_init (gnuDefault 24 []) ['a', 'B', 'c']).1 = 0 ∧
    fn_match (gnuDefault 24 []) (fn_match_init (gnuDefault 24 []) ['a', 'b', 'c']).1
      (fn_match_init (gnuDefault 24 []) ['a', 'b', 'c']).2 ['x', 'A', 'b', 'C', 'y'] = true ∧
    ¬ fn_match (gnuDefault 24 []) (fn_match_init (gnuDefault 24 []) ['A', 'B', 'C']).1
      (fn_match_init (gnuDefault 24 []) ['A', 'B', 'C']).2 ['x', 'A', 'b', 'C', 'y'] = true :=
  ⟨by decide,
    (C3_smartcase (gnuDefault 24 []) (by decide) ['a', 'B', 'c'] [] [] 24 []
      ['x', 'A', 'b', 'C', 'y']).2.1.mpr ⟨'B', by decide, by decide⟩,
    by decide, by decide⟩

/-- C6 at a concrete session: `apple`, `banana`, `grape` at loop start.  The key `a` changes
the search string; the key `KEY_DOWN` moves the cursor to the second match. -/
theorem C6_query_change_resets_witness :
    specPrintable 97 = true ∧
    (∃ s', display 0 (gnuDefault 24 ["apple".toList, "banana".toList, "grape".toList])
        (mainInit (gnuDefault 24 ["apple".toList, "banana".toList, "grape".toList]) [0, 0, 0])
        97 (some (keyname 97)) = some (Session.running s') ∧
      s'.search = ['a'] ∧ s'.current = 0 ∧ s'.match_ = [1, 1, 1] ∧ s'.matchCount = 3) ∧
    (∃ s', display 0 (gnuDefault 24 ["apple".toList, "banana".toList, "grape".toList])
        (mainInit (gnuDefault 24 ["apple".toList, "banana".toList, "grape".toList]) [0, 0, 0])
        KEY_DOWN (some (keyname KEY_DOWN)) = some (Session.running s') ∧
      s'.search = [] ∧ s'.current = 1 ∧ s'.selection = some "banana".toList) :=
  ⟨by decide,
    ⟨_, (C6_query_change_resets 0
        (gnuDefault 24 ["apple".toList, "banana".toList, "grape".toList])
        (mainInit (gnuDefault 24 ["apple".toList, "banana".toList, "grape".toList])
          [0, 0, 0])).1 97 (some (keyname 97)) (by decide) (by decide) (Or.inr rfl),
      by decide, by decide, by decide, by decide⟩,
    ⟨_, (C6_query_change_resets 0
        (gnuDefault 24 ["apple".toList, "banana".toList, "grape".toList])
        (mainInit (gnuDefault 24 ["apple".toList, "banana".toList, "grape".toList])
          [0, 0, 0])).2.2.2.1 KEY_DOWN 1 (by decide),
      by decide, by decide, by decide⟩⟩

/-- C9 refuted as stated: with no favourite configured, the key `;` at loop start over `apple`,
`banana`, `grape` turns the empty search string into `;` and takes `matchCount` from 3 to 0. -/
theorem C9_counterexample :
    (gnuDefault 24 ["apple".toList, "banana".toList, "grape".toList]).favourite = none ∧
    (mainInit (gnuDefault 24 ["apple".toList, "banana".toList, "grape".toList])
      [0, 0, 0]).search = [] ∧
    (mainInit (gnuDefault 24 ["apple".toList, "banana".toList, "grape".toList])
      [0, 0, 0]).matchCount = 3 ∧
    ∃ s', keyEvent 0 (gnuDefault 24 ["apple".toList, "banana".toList, "grape".toList])
        (mainInit (gnuDefault 24 ["apple".toList, "banana".toList, "grape".toList]) [0, 0, 0])
        59 = some (Session.running s') ∧
      s'.search = [';'] ∧ s'.matchCount = 0 ∧ s'.match_ = [0, 0, 0] :=
  ⟨rfl, by decide, by decide, _, rfl, by decide, by decide, by decide⟩

/-- C9 as the code has it, at loop start over `apple`, `banana`, `grape`. -/
theorem C9_semicolon_without_favourite_witness :
    (gnuDefault 24 ["apple".toList, "banana".toList, "grape".toList]).favourite = none ∧
    ∃ s', display 0 (gnuDefault 24 ["apple".toList, "banana".toList, "grape".toList])
        (mainInit (gnuDefault 24 ["apple".toList, "banana".toList, "grape".toList]) [0, 0, 0])
        59 (some (keyname 59)) = some (Session.running s') ∧
      s'.search = [';'] ∧ s'.current = 0 :=
  ⟨rfl, _, (C9_semicolon_without_favourite 0
      (gnuDefault 24 ["apple".toList, "banana".toList, "grape".toList])
      (mainInit (gnuDefault 24 ["apple".toList, "banana".toList, "grape".toList]) [0, 0, 0])
      (some (keyname 59)) rfl (Or.inr rfl)).1, by decide, by decide⟩

/-! ## The favourite -/

theorem navigate_not_nav (env : Env) (s : State) (c : Int) (key : Option String)
    (hk : navName key = false) : navigate env s c key = (s.current, c) := by
  unfold navName at hk
  simp only [decide_eq_false_iff_not, not_or] at hk
  obtain ⟨h1, h2, h3, h4, h5, h6⟩ := hk
  unfold navigate
  simp only [if_neg h1, if_neg h2, if_neg h3, if_neg h4, if_neg h5, if_neg h6]

theorem keyEdit_key_irrelevant (env : Env) (s : State) (c : Int) (k1 k2 : Option String)
    (h1 : navName k1 = false) (h2 : navName k2 = false) :
    keyEdit env s c k1 = keyEdit env s c k2 := by
  unfold keyEdit
  rw [navigate_not_nav env s c k1 h1, navigate_not_nav env s c k2 h2]

theorem navigate_setQ (env : Env) (s : State) (c q : Int) (key : Option String) :
    navigate env { s with qcnt := q } c key = navigate env s c key := rfl

theorem displayKey_setQ (env : Env) (s : State) (c q : Int) (key : Option String) :
    displayKey env { s with qcnt := q } c key = { displayKey env s c key with qcnt := q } := by
  unfold displayKey keyEdit
  rw [navigate_setQ]
  simp only
  split_ifs <;> rfl

theorem exitKeysPass_setQ (env : Env) (a b : State) (cs : List Int) (h : a.qcnt = b.qcnt) :
    exitKeysPass env a cs = exitKeysPass env b cs := by
  induction cs generalizing a b with
  | nil => rfl
  | cons c cs ih =>
    unfold exitKeysPass
    rcases quit_cases env a c (keyname c) with ha | ha
    · have hb : quit env b c (keyname c) = Session.exited 1 none := by
        unfold quit at ha ⊢
        rw [← h]
        split_ifs at ha ⊢ <;> simp_all
      rw [ha, hb]
    · have hb : quit env b c (keyname c) = Session.running { b with qcnt :=
          if env.qq_quits ≠ 0 then (if c = 113 then b.qcnt + 1 else 0) else b.qcnt } := by
        unfold quit at ha ⊢
        rw [← h]
        split_ifs at ha ⊢ <;> simp_all
      rw [ha, hb]
      exact ih _ _ (by simp only [h])

theorem ofChar_ne_semicolon (ch : Char) (h : ch ≠ ';') : ofChar ch ≠ 59 := by
  intro h59
  apply h
  have hn : ch.toNat = 59 := by
    unfold ofChar at h59
    omega
  rw [← Char.ofNat_toNat ch, hn]

theorem replay_simulates (f1 f2 : Nat) (env : Env) (fav : Str)
    (hsemi : ';' ∉ fav) (hbyte : ∀ ch ∈ fav, ch.toNat < 256)
    (b : State) (q : Int) (hpass : exitKeysPass env b (fav.map ofChar) = true) :
    ∃ r1 r2,
      replay (display f1 env) (some (Session.running { b with qcnt := q })) fav = some r1 ∧
      run f2 env (Session.running b) (fav.map ofChar) = some r2 ∧
      r1.view = r2.view := by
  induction fav generalizing b q with
  | nil => exact ⟨_, _, rfl, rfl, rfl⟩
  | cons ch rest ih =>
    have hc59 : ofChar ch ≠ 59 :=
      ofChar_ne_semicolon ch (fun h => hsemi (by rw [h]; exact List.mem_cons_self _ _))
    have hcb : 0 ≤ ofChar ch ∧ ofChar ch < 256 := by
      have := hbyte ch (List.mem_cons_self _ _)
      unfold ofChar
      omega
    have hsemi' : ';' ∉ rest := fun h => hsemi (List.mem_cons_of_mem _ h)
    have hbyte' : ∀ x ∈ rest, x.toNat < 256 := fun x hx => hbyte x (List.mem_cons_of_mem _ hx)
    simp only [List.map_cons, exitKeysPass] at hpass
    rcases quit_cases env b (ofChar ch) (keyname (ofChar ch)) with hq | hq
    · rw [hq] at hpass
      exact absurd hpass (by simp)
    · rw [hq] at hpass
      simp only at hpass
      simp only [List.map_cons, replay, run, keyEvent, hq]
      by_cases h10 : ofChar ch = 10
      · rw [h10, display_confirm, display_confirm]
        cases hsel : b.selection with
        | none =>
          simp only [hsel]
          rw [replay_stuck _ _ _ (by simp), run_exited]
          exact ⟨_, _, rfl, rfl, rfl⟩
        | some sel =>
          simp only [hsel]
          rw [replay_stuck _ _ _ (by simp), run_exited]
          exact ⟨_, _, rfl, rfl, rfl⟩
      · rw [display_plain f1 env _ _ _ h10 (fun h => absurd h hc59),
          display_plain f2 env _ _ _ h10 (fun h => absurd h hc59)]
        simp only
        have e1 := displayKey_setQ env b (ofChar ch) q none
        have e2 := displayKey_setQ env b (ofChar ch)
          (if env.qq_quits ≠ 0 then (if ofChar ch = 113 then b.qcnt + 1 else 0) else b.qcnt)
          (some (keyname (ofChar ch)))
        rw [e1, e2]
        have hkey : displayKey env b (ofChar ch) (some (keyname (ofChar ch))) =
            displayKey env b (ofChar ch) none := by
          unfold displayKey
          rw [keyEdit_key_irrelevant env b _ _ none (keyname_byte_not_nav _ hcb)
            keyname_none_not_nav]
        rw [hkey]
        have hp : exitKeysPass env
            { displayKey env b (ofChar ch) none with qcnt :=
              if env.qq_quits ≠ 0 then (if ofChar ch = 113 then b.qcnt + 1 else 0)
              else b.qcnt } (rest.map ofChar) = true := by
          rw [← hpass]
          exact exitKeysPass_setQ env _ _ _ rfl
        exact ih hsemi' hbyte' _ q hp

/-- A favourite that contains the trigger character replays itself without end: for the
favourite `;` the nesting of `display` exceeds every bound.  (Supporting fact for C8.) -/
theorem favourite_trigger_diverges (fuel : Nat) (env : Env) (s : State) (key : Option String)
    (hfav : env.favourite = some [';']) : display fuel env s 59 key = none := by
  induction fuel generalizing s key with
  | zero => exact display_replay_zero env s key _ hfav
  | succ n ih =>
    rw [display_replay n env s key _ hfav]
    simp only [replay]
    exact ih s none

/-- C8 refuted as stated: with the favourite `qq` and `qq_quits` set, the key `;` at loop start
appends `qq` to the search string and the session goes on, whereas the key events `q`, `q` end
the process with status 1. -/
theorem C8_counterexample :
    (∃ s', keyEvent 1 (gnuFavourite 24 ["foobar".toList, "baz".toList] ['q', 'q'])
        (mainInit (gnuFavourite 24 ["foobar".toList, "baz".toList] ['q', 'q']) [0, 0])
        59 = some (Session.running s') ∧ s'.search = ['q', 'q']) ∧
    run 1 (gnuFavourite 24 ["foobar".toList, "baz".toList] ['q', 'q'])
      (Session.running
        (mainInit (gnuFavourite 24 ["foobar".toList, "baz".toList] ['q', 'q']) [0, 0]))
      (['q', 'q'].map ofChar) = some (Session.exited 1 none) :=
  ⟨⟨_, rfl, by decide⟩, by decide⟩

/-- C8, as the code has it. For a configured favourite that does not contain `;` and consists of
single-byte characters, the key `;` returns, and its effect on the search string, the cursor,
the match cache, the frame and on how the process ends is that of the favourite's characters
arriving one by one as key events, provided the exit-key checks of `quit` (two `q` in a row,
escape, control-C) let all of those key events through: the replay does not run them. -/
theorem C8_favourite_replay (fuel fuel' : Nat) (env : Env) (s : State) (fav : Str)
    (hfav : env.favourite = some fav) (hsemi : ';' ∉ fav)
    (hbyte : ∀ ch ∈ fav, ch.toNat < 256)
    (hpass : exitKeysPass env s (fav.map ofChar) = true) :
    ∃ r1 r2, keyEvent (fuel + 1) env s 59 = some r1 ∧
      run fuel' env (Session.running s) (fav.map ofChar) = some r2 ∧
      r1.view = r2.view := by
  have hquit : quit env s 59 (keyname 59) = Session.running { s with qcnt :=
      if env.qq_quits ≠ 0 then (if (59 : Int) = 113 then s.qcnt + 1 else 0) else s.qcnt } := by
    have hdie : ¬ (env.qq_quits ≠ 0 ∧ (59 : Int) = 113 ∧ s.qcnt ≠ 0) := by
      intro h
      exact absurd h.2.1 (by decide)
    have hesc : ¬ ((59 : Int) = 27 ∨ keyname 59 = "^C") := by decide
    unfold quit
    rw [if_neg hdie]
    simp only [hesc, if_false]
  unfold keyEvent
  rw [hquit]
  simp only
  rw [display_replay fuel env _ _ fav hfav]
  exact replay_simulates fuel fuel' env fav hsemi hbyte s _ hpass

/-- C8 at the specification's scenario: favourite `foo`, items `foobar` and `baz`, empty search
string.  The key `;` leaves the search string `foo` and one match, as the key events `f`, `o`,
`o` do. -/
theorem C8_favourite_replay_witness :
    (∃ s', keyEvent 1 (gnuFavourite 24 ["foobar".toList, "baz".toList] ['f', 'o', 'o'])
        (mainInit (gnuFavourite 24 ["foobar".toList, "baz".toList] ['f', 'o', 'o']) [0, 0])
        59 = some (Session.running s') ∧
      s'.search = ['f', 'o', 'o'] ∧ s'.match_ = [1, 0] ∧ s'.matchCount = 1) ∧
    ∃ r1 r2,
      keyEvent 1 (gnuFavourite 24 ["foobar".toList, "baz".toList] ['f', 'o', 'o'])
        (mainInit (gnuFavourite 24 ["foobar".toList, "baz".toList] ['f', 'o', 'o']) [0, 0])
        59 = some r1 ∧
      run 0 (gnuFavourite 24 ["foobar".toList, "baz".toList] ['f', 'o', 'o'])
        (Session.running
          (mainInit (gnuFavourite 24 ["foobar".toList, "baz".toList] ['f', 'o', 'o']) [0, 0]))
        (['f', 'o', 'o'].map ofChar) = some r2 ∧
      r1.view = r2.view :=
  ⟨⟨_, rfl, by decide, by decide, by decide⟩,
    C8_favourite_replay 0 0 (gnuFavourite 24 ["foobar".toList, "baz".toList] ['f', 'o', 'o'])
      (mainInit (gnuFavourite 24 ["foobar".toList, "baz".toList] ['f', 'o', 'o']) [0, 0])
      ['f', 'o', 'o'] rfl (by decide) (by decide) (by decide)⟩

/-! ## The highlighted item -/

theorem drawLoop_selection (LINES top current : Int)
    (h1 : top ≤ current + 1) (h2 : current + 1 < LINES + top)
    (l : List (Str × Int)) (y : Int) (sel : Option Str) (drawn : List (Str × Bool)) :
    (drawLoop LINES top current l y sel drawn).1 =
      if current + 1 ≤ y then sel
      else (specResolve l (current + 1 - y)).orElse (fun _ => sel) := by
  induction l generalizing y sel drawn with
  | nil =>
    simp only [drawLoop, specResolve]
    split_ifs <;> rfl
  | cons p rest ih =>
    obtain ⟨txt, m⟩ := p
    by_cases hm : m ≠ 0
    · simp only [drawLoop, specResolve, if_pos hm]
      by_cases hy : current + 1 ≤ y
      · rw [if_pos hy, if_neg (by omega)]
        split_ifs with hb hsel
        · rfl
        · omega
        · rw [ih, if_pos (by omega)]
      · rw [if_neg hy]
        split_ifs with ht hb hsel hr hr
        · omega
        · rw [ih, if_neg (by omega)]
          congr 2
          omega
        · omega
        · omega
        · rw [ih, if_pos (by omega)]
          rfl
        · omega
        · omega
        · rw [ih, if_neg (by omega)]
          congr 2
          omega
    · simp only [drawLoop, specResolve, if_neg hm]
      exact ih y sel drawn

theorem specResolve_none_iff (l : List (Str × Int)) (r : Int) (hr : 1 ≤ r) :
    specResolve l r = none ↔ flagged (l.map Prod.snd) < r := by
  induction l generalizing r with
  | nil => simp [specResolve, flagged]; omega
  | cons p rest ih =>
    obtain ⟨txt, m⟩ := p
    by_cases hm : m ≠ 0
    · have hf : flagged (((txt, m) :: rest).map Prod.snd) = flagged (rest.map Prod.snd) + 1 := by
        simp [flagged, List.filter, hm]
      have hpos : 0 ≤ flagged (rest.map Prod.snd) := by unfold flagged; omega
      simp only [specResolve, if_pos hm, hf]
      split_ifs with h1
      · simp only [reduceCtorEq, false_iff]; omega
      · rw [ih (r - 1) (by omega)]; omega
    · have hf : flagged (((txt, m) :: rest).map Prod.snd) = flagged (rest.map Prod.snd) := by
        simp only [ne_eq, not_not] at hm
        simp [flagged, List.filter, hm]
      simp only [specResolve, if_neg hm, hf]
      exact ih r hr

theorem layout_window (env : Env) (s : State) (hL : 3 ≤ env.LINES) :
    0 ≤ (layout env s).current ∧
    (layout env s).top ≤ (layout env s).current + 1 ∧
    (layout env s).current + 1 < env.LINES + (layout env s).top := by
  have hd : Int.tdiv env.LINES 2 = env.LINES / 2 := Int.tdiv_eq_ediv (by omega) (by omega)
  rw [layout_top, layout_current, hd]
  unfold middle max min
  split_ifs <;> omega

/-- On a terminal of three lines or more the frame highlights the item whose rank among the
flagged items is `current + 1`, and there is none exactly when nothing is flagged.  (Supporting
fact for C1: the claim holds from `LINES = 3` on.) -/
theorem layout_selection (env : Env) (s : State) (hL : 3 ≤ env.LINES)
    (hlen : s.match_.length = env.lineTxt.length) (hmc : s.matchCount = flagged s.match_) :
    (layout env s).selection =
      specResolve (env.lineTxt.zip s.match_) ((layout env s).current + 1) ∧
    ((layout env s).selection = none ↔ s.matchCount = 0) := by
  obtain ⟨h0, h1, h2⟩ := layout_window env s hL
  have hsel : (layout env s).selection =
      specResolve (env.lineTxt.zip s.match_) ((layout env s).current + 1) := by
    show (drawLoop env.LINES (layout env s).top (layout env s).current
      (env.lineTxt.zip s.match_) 0 none []).1 = _
    rw [drawLoop_selection _ _ _ h1 h2, if_neg (by omega)]
    simp only [sub_zero]
    cases specResolve (env.lineTxt.zip s.match_) ((layout env s).current + 1) <;> rfl
  refine ⟨hsel, ?_⟩
  rw [hsel, specResolve_none_iff _ _ (by omega), List.map_snd_zip _ _ (by omega), ← hmc]
  have hpos : 0 ≤ s.matchCount := by rw [hmc]; unfold flagged; omega
  have hc := layout_current env s
  unfold middle max min at hc
  split_ifs at hc <;> omega

/-- C1 at an input where the code departs from it: on a terminal with `LINES = 2`, items `a`
and `b` (both flagged, `matchCount = 2`), the key `KEY_DOWN` leaves `current = 1`, so the item
of rank `current + 1` is `b`; but the drawing loop breaks before it gets there, `selection`
stays null, and the confirmation that follows ends the process with status 1 and no output. -/
theorem C1_two_line_terminal :
    (∃ s, run 0 (gnuDefault 2 [['a'], ['b']])
        (Session.running (mainInit (gnuDefault 2 [['a'], ['b']]) [0, 0])) [KEY_DOWN] =
          some (Session.running s) ∧
      s.match_ = [1, 1] ∧ s.matchCount = 2 ∧ s.matchCount = flagged s.match_ ∧
      s.current = 1 ∧ s.top = 0 ∧
      specResolve ((gnuDefault 2 [['a'], ['b']]).lineTxt.zip s.match_) (s.current + 1) =
        some ['b'] ∧
      s.selection = none) ∧
    run 0 (gnuDefault 2 [['a'], ['b']])
      (Session.running (mainInit (gnuDefault 2 [['a'], ['b']]) [0, 0])) [KEY_DOWN, 10] =
        some (Session.exited 1 none) :=
  ⟨⟨_, rfl, by decide, by decide, by decide, by decide, by decide, by decide, by decide⟩,
    by decide⟩

theorem drawLoop_no_flags (LINES top current : Int) (l : List (Str × Int))
    (h : ∀ p ∈ l, p.2 = 0) (y : Int) (sel : Option Str) (drawn : List (Str × Bool)) :
    drawLoop LINES top current l y sel drawn = (sel, drawn) := by
  induction l with
  | nil => rfl
  | cons p rest ih =>
    obtain ⟨txt, m⟩ := p
    have hm : m = 0 := h (txt, m) (List.mem_cons_self _ _)
    simp only [drawLoop, hm, ne_eq, not_true_eq_false, if_false]
    exact ih (fun p hp => h p (List.mem_cons_of_mem _ hp))

/-- Whatever the items and the options, when `malloc` hands out zero-filled memory the frame
drawn before the loop of `main` is empty, `selection` is null at loop start, and a confirmation
as the first key event ends the process with status 1 and no output.  (Supporting fact for
C7.) -/
theorem first_frame_blank (fuel : Nat) (env : Env) (n : Nat) :
    (re_display env
      { match_ := List.replicate n 0, matchCount := 0, fn_pattern := [], fn_flag := 0,
        selection := none, search := [], current := 0, qcnt := 0, top := 0,
        drawn := [] }).drawn = [] ∧
    (mainInit env (List.replicate n 0)).selection = none ∧
    keyEvent fuel env (mainInit env (List.replicate n 0)) 10 = some (Session.exited 1 none) := by
  have hz : ∀ p ∈ env.lineTxt.zip (List.replicate n (0 : Int)), p.2 = 0 := by
    rintro ⟨txt, m⟩ hp
    exact List.eq_of_mem_replicate (List.of_mem_zip hp).2
  have hsel : (mainInit env (List.replicate n 0)).selection = none := by
    show (drawLoop env.LINES _ _ (env.lineTxt.zip (List.replicate n (0 : Int))) 0 none []).1 = none
    rw [drawLoop_no_flags _ _ _ _ hz]
  refine ⟨?_, hsel, ?_⟩
  · show (drawLoop env.LINES _ _ (env.lineTxt.zip (List.replicate n (0 : Int))) 0 none []).2 = []
    rw [drawLoop_no_flags _ _ _ _ hz]
  · have hquit : quit env (mainInit env (List.replicate n 0)) 10 (keyname 10) =
        Session.running { mainInit env (List.replicate n 0) with qcnt :=
          if env.qq_quits ≠ 0 then (if (10 : Int) = 113 then
            (mainInit env (List.replicate n 0)).qcnt + 1 else 0)
          else (mainInit env (List.replicate n 0)).qcnt } := by
      have hdie : ¬ (env.qq_quits ≠ 0 ∧ (10 : Int) = 113 ∧
          (mainInit env (List.replicate n 0)).qcnt ≠ 0) := by
        intro h
        exact absurd h.2.1 (by decide)
      have hesc : ¬ ((10 : Int) = 27 ∨ keyname 10 = "^C") := by decide
      unfold quit
      rw [if_neg hdie]
      simp only [hesc, if_false]
    unfold keyEvent
    rw [hquit]
    simp only
    rw [display_confirm, hsel]

/-- C7 at an input where the code departs from it: `apple`, `banana`, `grape` with the default
options on a 24-line terminal, the `match` array zero-filled when `malloc` returns it.  The
first frame, drawn by `re_display()` before `updateResults("")` has run, shows no item and
highlights none; at loop start all three items are flagged but `selection` is still null, and
a confirmation as the first key event ends the process with status 1 and no output. -/
theorem C7_first_frame :
    (re_display (gnuDefault 24 ["apple".toList, "banana".toList, "grape".toList])
      { match_ := [0, 0, 0], matchCount := 0, fn_pattern := [], fn_flag := 0,
        selection := none, search := [], current := 0, qcnt := 0, top := 0,
        drawn := [] }).drawn = [] ∧
    (mainInit (gnuDefault 24 ["apple".toList, "banana".toList, "grape".toList])
      [0, 0, 0]).search = [] ∧
    (mainInit (gnuDefault 24 ["apple".toList, "banana".toList, "grape".toList])
      [0, 0, 0]).match_ = [1, 1, 1] ∧
    (mainInit (gnuDefault 24 ["apple".toList, "banana".toList, "grape".toList])
      [0, 0, 0]).drawn = [] ∧
    (mainInit (gnuDefault 24 ["apple".toList, "banana".toList, "grape".toList])
      [0, 0, 0]).selection = none ∧
    run 0 (gnuDefault 24 ["apple".toList, "banana".toList, "grape".toList])
      (Session.running
        (mainInit (gnuDefault 24 ["apple".toList, "banana".toList, "grape".toList]) [0, 0, 0]))
      [10] = some (Session.exited 1 none) := by
  refine ⟨?_, ?_, ?_, ?_, ?_, ?_⟩ <;> decide

end PPick
